import Mathlib

/-!
Shallow embedding of two clippy lint passes:
`clippy_lints/src/needless_bool.rs` (the `NeedlessBool` and `BoolComparison`
late lint passes together with the `fetch_bool_block` / `fetch_bool_expr`
classifiers) and `clippy_lints/src/transmute.rs` (the `Transmute` late lint
pass).  Expressions, blocks and statements are modelled after the fragment of
the rustc HIR that these passes inspect; types are modelled after the fragment
of `rustc::ty` that the transmute pass inspects.  Source-text recovery
(`snippet_opt` / `snippet`) is modelled as an oracle function from expressions
to `Option String`, and the host's type oracle (`cx.tcx.expr_ty`) as a function
from expressions to types.
-/

namespace Clippy

/-- Mutability of a reference or raw pointer, after `rustc::hir::Mutability`. -/
inductive Mutability where
  | mutImmutable
  | mutMutable
deriving DecidableEq, Repr

/-- The fragment of `rustc::ty` that `transmute.rs` inspects: `TyInt`, `TyUint`,
`TyFloat`, `TyChar`, `TyRef` (regions erased, carrying a `TypeAndMut`),
`TyRawPtr` (carrying a `TypeAndMut`), and an opaque catch-all for every other
type, distinguished by an identity tag so that distinct host types stay
distinct. -/
inductive Ty where
  | int (w : Nat)
  | uint (w : Nat)
  | float (w : Nat)
  | char
  | ref (m : Mutability) (t : Ty)
  | rawPtr (m : Mutability) (t : Ty)
  | adt (id : Nat)
deriving DecidableEq, Repr

/-- Rendering of a type, modelling the `Display` instance used by the
`format!` calls in `transmute.rs` when messages and suggestions are built. -/
def tyStr : Ty → String
  | .int w => "i" ++ toString w
  | .uint w => "u" ++ toString w
  | .float w => "f" ++ toString w
  | .char => "char"
  | .ref m t => "&" ++ (if m = .mutMutable then "mut " else "") ++ tyStr t
  | .rawPtr m t => (if m = .mutMutable then "*mut " else "*const ") ++ tyStr t
  | .adt n => "T" ++ toString n

/-- Literal kinds, after `syntax::ast::LitKind`: boolean literals are the only
kind `needless_bool.rs` distinguishes. -/
inductive Lit where
  | bool (b : Bool)
  | otherLit (n : Nat)

/-- Binary operators, after `rustc::hir::BinOp_`: `BiEq` is the only operator
`needless_bool.rs` distinguishes; a few others are carried to model the rest. -/
inductive BinOp where
  | biEq
  | biNe
  | biLt
  | biAnd
  | biOr
deriving DecidableEq, Repr

mutual
/-- Expressions, after the fragment of `rustc::hir::Expr_` that the two lint
files inspect: `ExprLit`, `ExprBlock`, `ExprRet`, `ExprBinary`, `ExprIf`,
`ExprCall`, `ExprMethodCall`, `ExprPath` (resolved to a definition id), and an
opaque catch-all for every other expression kind. -/
inductive Expr where
  | lit (l : Lit)
  | block (b : Block)
  | ret (e : Option Expr)
  | binary (op : BinOp) (l r : Expr)
  | ifE (cond : Expr) (thenB : Block) (elseE : Option Expr)
  | call (callee : Expr) (args : List Expr)
  | methodCall (receiver : Expr) (args : List Expr)
  | path (defId : Nat)
  | otherExpr (n : Nat)

/-- Blocks, after `rustc::hir::Block`: a list of statements plus an optional
trailing expression. -/
inductive Block where
  | mk (stmts : List Stmt) (tail : Option Expr)

/-- Statements, after `rustc::hir::Stmt_`: declarations, expression statements
(`StmtExpr`), and semicolon-terminated expression statements (`StmtSemi`). -/
inductive Stmt where
  | decl (n : Nat)
  | exprStmt (e : Expr)
  | semi (e : Expr)
end

/-- The classification produced by `fetch_bool_expr` / `fetch_bool_block`,
after `enum Expression { Bool(bool), RetBool(bool), Other }` in
`needless_bool.rs`. -/
inductive Expression where
  | bool (b : Bool)
  | retBool (b : Bool)
  | other
deriving DecidableEq, Repr

/-- Lint identifiers declared by the two files. -/
inductive LintId where
  | needlessBool
  | boolComparison
  | uselessTransmute
  | wrongTransmute
  | crosspointerTransmute
  | transmutePtrToRef
deriving DecidableEq, Repr

/-- A diagnostic record: the lint fired, the message, and the optional
suggested replacement passed to `span_suggestion` (absent when the code warns
via plain `span_lint` or skips the suggestion closure). -/
structure Diag where
  lint : LintId
  msg : String
  sugg : Option String
deriving DecidableEq, Repr

mutual
/-- Translation of `fetch_bool_expr` from `needless_bool.rs`. -/
def fetch_bool_expr : Expr → Expression
  | .block b => fetch_bool_block b
  | .lit l =>
    match l with
    | .bool v => .bool v
    | _ => .other
  | .ret (some e) =>
    match fetch_bool_expr e with
    | .bool v => .retBool v
    | _ => .other
  | _ => .other

/-- Translation of `fetch_bool_block` from `needless_bool.rs`. -/
def fetch_bool_block : Block → Expression
  | .mk stmts tail =>
    match stmts, tail with
    | [], some e => fetch_bool_expr e
    | [s], none =>
      match s with
      | .semi e =>
        match e with
        | .ret _ => fetch_bool_expr e
        | _ => .other
      | _ => .other
    | _, _ => .other
end

/-- Translation of `NeedlessBool::check_expr` from `needless_bool.rs`: fires on
`ExprIf` with a two-armed conditional, classifies the branches and matches the
pair; `snip` models `snippet_opt` on the predicate's span. -/
def checkNeedlessBool (snip : Expr → Option String) (e : Expr) : Option Diag :=
  match e with
  | .ifE pred then_block (some else_expr) =>
    let reduce : String → String → Option Diag := fun hint negStr =>
      let hint :=
        match snip pred with
        | some pred_snip => "`" ++ negStr ++ pred_snip ++ "`"
        | none => hint
      some ⟨.needlessBool, "this if-then-else expression returns a bool literal", some hint⟩
    match fetch_bool_block then_block, fetch_bool_expr else_expr with
    | .retBool true, .retBool true =>
      some ⟨.needlessBool, "this if-then-else expression will always return true", none⟩
    | .bool true, .bool true =>
      some ⟨.needlessBool, "this if-then-else expression will always return true", none⟩
    | .retBool false, .retBool false =>
      some ⟨.needlessBool, "this if-then-else expression will always return false", none⟩
    | .bool false, .bool false =>
      some ⟨.needlessBool, "this if-then-else expression will always return false", none⟩
    | .retBool true, .retBool false => reduce "its predicate" "return "
    | .bool true, .bool false => reduce "its predicate" ""
    | .retBool false, .retBool true => reduce "`!` and its predicate" "return !"
    | .bool false, .bool true => reduce "`!` and its predicate" "!"
    | _, _ => none
  | _ => none

/-- Model of `utils::snippet`, which falls back to the given default text when
the source text of the span cannot be recovered. -/
def snippetD (snip : Expr → Option String) (e : Expr) (dflt : String) : String :=
  (snip e).getD dflt

/-- Translation of `BoolComparison::check_expr` from `needless_bool.rs`: fires
on `ExprBinary` with `BiEq`, classifies both operands and matches the pair;
`snip` models source-text recovery on the operands' spans (the code uses
`snippet` with default `".."`). -/
def checkBoolComparison (snip : Expr → Option String) (e : Expr) : Option Diag :=
  match e with
  | .binary .biEq left_side right_side =>
    match fetch_bool_expr left_side, fetch_bool_expr right_side with
    | .bool true, .other =>
      some ⟨.boolComparison, "equality checks against true are unnecessary",
        some (snippetD snip right_side "..")⟩
    | .other, .bool true =>
      some ⟨.boolComparison, "equality checks against true are unnecessary",
        some (snippetD snip left_side "..")⟩
    | .bool false, .other =>
      some ⟨.boolComparison, "equality checks against false can be replaced by a negation",
        some ("!" ++ snippetD snip right_side "..")⟩
    | .other, .bool false =>
      some ⟨.boolComparison, "equality checks against false can be replaced by a negation",
        some ("!" ++ snippetD snip left_side "..")⟩
    | _, _ => none
  | _ => none

/-- Message of the `USELESS_TRANSMUTE` identical-types arm in `transmute.rs`. -/
def selfMsg (f : Ty) : String :=
  "transmute from a type (`" ++ tyStr f ++ "`) to itself"

/-- Message of the `WRONG_TRANSMUTE` arm in `transmute.rs`. -/
def wrongMsg (f : Ty) : String :=
  "transmute from a `" ++ tyStr f ++ "` to a pointer"

/-- Message of the pointer-to-pointee `CROSSPOINTER_TRANSMUTE` arm. -/
def crossMsg1 (f t : Ty) : String :=
  "transmute from a type (`" ++ tyStr f ++ "`) to the type that it points to (`"
    ++ tyStr t ++ "`)"

/-- Message of the pointee-to-pointer `CROSSPOINTER_TRANSMUTE` arm. -/
def crossMsg2 (f t : Ty) : String :=
  "transmute from a type (`" ++ tyStr f ++ "`) to a pointer to that type (`"
    ++ tyStr t ++ "`)"

/-- Message of the `TRANSMUTE_PTR_TO_REF` arm. -/
def ptrToRefMsg (f t : Ty) : String :=
  "transmute from a pointer type (`" ++ tyStr f ++ "`) to a reference type (`"
    ++ tyStr t ++ "`)"

/-- Suggestion built by the `TRANSMUTE_PTR_TO_REF` arm of `transmute.rs`:
`deref`/`cast` are chosen from the destination reference's mutability, the
argument is parenthesised unless it is a path, call, method call or block, and
when the pointee types differ an explicit cast to the destination's raw-pointer
equivalent is inserted. -/
def ptrToRefSugg (arg : String) (argShape : Expr) (fp rt : Ty) (rm : Mutability) : String :=
  let deref := if rm = .mutMutable then "&mut *" else "&*"
  let cast := if rm = .mutMutable then "*mut" else "*const"
  if fp = rt then
    match argShape with
    | .path _ | .call _ _ | .methodCall _ _ | .block _ => deref ++ arg
    | _ => deref ++ "(" ++ arg ++ ")"
  else
    deref ++ "(" ++ arg ++ " as " ++ cast ++ " " ++ tyStr rt ++ ")"

/-- Arms 7 and 8 of the type-pair match: the pointer-to-reference arm and the
final catch-all that emits nothing. -/
def transmuteRest3 (f t : Ty) (sn : Option String) (argShape : Expr) : Option Diag :=
  match f, t with
  | .rawPtr fm fp, .ref rm rt =>
    some ⟨.transmutePtrToRef, ptrToRefMsg (.rawPtr fm fp) (.ref rm rt),
      sn.map (fun arg => ptrToRefSugg arg argShape fp rt rm)⟩
  | _, _ => none

/-- Arms 6 to 8 of the type-pair match: the pointee-to-pointer guard, reached
when the pointer-to-pointee guard fails. -/
def transmuteRest2 (f t : Ty) (sn : Option String) (argShape : Expr) : Option Diag :=
  match t with
  | .rawPtr tm tp =>
    if tp = f then
      some ⟨.crosspointerTransmute, crossMsg2 f (.rawPtr tm tp), none⟩
    else
      transmuteRest3 f (.rawPtr tm tp) sn argShape
  | _ => transmuteRest3 f t sn argShape

/-- Arms 5 to 8 of the type-pair match in `Transmute::check_expr`: the
pointer-to-pointee guard, reached by the pairs that fall through the unguarded
arms 1 to 4. -/
def transmuteRest (f t : Ty) (sn : Option String) (argShape : Expr) : Option Diag :=
  match f with
  | .rawPtr fm fp =>
    if fp = t then
      some ⟨.crosspointerTransmute, crossMsg1 (.rawPtr fm fp) t, none⟩
    else
      transmuteRest2 (.rawPtr fm fp) t sn argShape
  | _ => transmuteRest2 f t sn argShape

/-- Translation of the type-pair match of `Transmute::check_expr` in
`transmute.rs`: given the resolved source and destination types, the recovered
source text of the argument (`snippet_opt`) and the argument expression's
shape, produce the diagnostic record, if any.  The arms appear in the source's
order; the guarded arms 5 to 8 are factored into `transmuteRest`. -/
def transmuteDiag (f t : Ty) (sn : Option String) (argShape : Expr) : Option Diag :=
  if f = t then
    some ⟨.uselessTransmute, selfMsg f, none⟩
  else
    match f, t with
    | .ref rm rt, .rawPtr pm pt =>
      some ⟨.uselessTransmute, "transmute from a reference to a pointer",
        sn.map (fun arg =>
          if pm = rm ∧ pt = rt then
            arg ++ " as " ++ tyStr (.rawPtr pm pt)
          else
            arg ++ " as " ++ tyStr (.rawPtr rm rt) ++ " as " ++ tyStr (.rawPtr pm pt))⟩
    | .int _, .rawPtr pm pt =>
      some ⟨.uselessTransmute, "transmute from an integer to a pointer",
        sn.map (fun arg => arg ++ " as " ++ tyStr (.rawPtr pm pt))⟩
    | .uint _, .rawPtr pm pt =>
      some ⟨.uselessTransmute, "transmute from an integer to a pointer",
        sn.map (fun arg => arg ++ " as " ++ tyStr (.rawPtr pm pt))⟩
    | .float w, .ref _ _ => some ⟨.wrongTransmute, wrongMsg (.float w), none⟩
    | .float w, .rawPtr _ _ => some ⟨.wrongTransmute, wrongMsg (.float w), none⟩
    | .char, .ref _ _ => some ⟨.wrongTransmute, wrongMsg .char, none⟩
    | .char, .rawPtr _ _ => some ⟨.wrongTransmute, wrongMsg .char, none⟩
    | f, t => transmuteRest f t sn argShape

/-- Translation of the outer shape of `Transmute::check_expr`: fire only on a
call whose callee is a path resolving (per the host oracle `isTransmuteDef`,
modelling `match_def_path` against `paths::TRANSMUTE`) to the transmute
intrinsic; the unguarded `args[0]` access is modelled as an `Except` error when
the argument list is empty, since the source would index out of bounds there.
`exprTy` models `cx.tcx.expr_ty`. -/
def checkTransmute (exprTy : Expr → Ty) (isTransmuteDef : Nat → Bool)
    (snip : Expr → Option String) (e : Expr) : Except String (Option Diag) :=
  match e with
  | .call pathExpr args =>
    match pathExpr with
    | .path defId =>
      if isTransmuteDef defId then
        match args with
        | [] => .error "index out of bounds: args has no element 0"
        | arg0 :: _ =>
          .ok (transmuteDiag (exprTy arg0) (exprTy e) (snip arg0) arg0)
      else .ok none
    | _ => .ok none
  | _ => .ok none

/-! Spec-side definitions: these follow the wording of the specification's
decision tables and classification rules, to be compared with the functions
translated from the source. -/

/-- The closed set of cast relationship categories named by the spec. -/
inductive CastRel where
  | identical
  | refToPtr
  | intToPtr
  | wrongKind
  | ptrToPointee
  | pointeeToPtr
  | ptrToRef
  | unrelated
deriving DecidableEq, Repr

/-- Shape test: is the type a reference. -/
def Ty.isRef : Ty → Bool
  | .ref _ _ => true
  | _ => false

/-- Shape test: is the type a raw pointer. -/
def Ty.isRawPtr : Ty → Bool
  | .rawPtr _ _ => true
  | _ => false

/-- Shape test: is the type a signed integer. -/
def Ty.isInt : Ty → Bool
  | .int _ => true
  | _ => false

/-- Shape test: is the type an unsigned integer. -/
def Ty.isUint : Ty → Bool
  | .uint _ => true
  | _ => false

/-- Shape test: is the type a float. -/
def Ty.isFloat : Ty → Bool
  | .float _ => true
  | _ => false

/-- Shape test: is the type `char`. -/
def Ty.isChar : Ty → Bool
  | .char => true
  | _ => false

/-- The pointee of a raw pointer, when the type is one. -/
def Ty.pointee? : Ty → Option Ty
  | .rawPtr _ p => some p
  | _ => none

/-- Spec-side classifier, following the spec's list of eight relationship
categories, tested in the stated fixed order with the first match winning. -/
def specClassifyOrdered (f t : Ty) : CastRel :=
  if f = t then .identical
  else if f.isRef && t.isRawPtr then .refToPtr
  else if (f.isInt || f.isUint) && t.isRawPtr then .intToPtr
  else if (f.isFloat || f.isChar) && (t.isRef || t.isRawPtr) then .wrongKind
  else if f.pointee? = some t then .ptrToPointee
  else if t.pointee? = some f then .pointeeToPtr
  else if f.isRawPtr && t.isRef then .ptrToRef
  else .unrelated

/-- The lint that the spec associates with each cast relationship category
(`none` when no diagnostic is to be produced). -/
def castRelLint : CastRel → Option LintId
  | .identical => some .uselessTransmute
  | .refToPtr => some .uselessTransmute
  | .intToPtr => some .uselessTransmute
  | .wrongKind => some .wrongTransmute
  | .ptrToPointee => some .crosspointerTransmute
  | .pointeeToPtr => some .crosspointerTransmute
  | .ptrToRef => some .transmutePtrToRef
  | .unrelated => none

/-- Spec-side block classification, following the spec's wording: a block with
no statements and a trailing expression classifies as that expression does; a
block whose single statement is a semicolon-terminated return classifies as
`retBool v` when the return's argument classifies as `bool v`; every other
shape is unclassified. -/
def specBlockClassify (stmts : List Stmt) (tail : Option Expr) : Expression :=
  match stmts, tail with
  | [], some e => fetch_bool_expr e
  | [.semi (.ret (some a))], none =>
    match fetch_bool_expr a with
    | .bool v => .retBool v
    | _ => .other
  | _, _ => .other

/-- Spec-side decision table of the redundant-conditional check, on the pair
of branch classifications, given the recovered source text `s` of the
condition. -/
def needlessBoolTable (s : String) : Expression → Expression → Option Diag
  | .retBool true, .retBool true =>
    some ⟨.needlessBool, "this if-then-else expression will always return true", none⟩
  | .bool true, .bool true =>
    some ⟨.needlessBool, "this if-then-else expression will always return true", none⟩
  | .retBool false, .retBool false =>
    some ⟨.needlessBool, "this if-then-else expression will always return false", none⟩
  | .bool false, .bool false =>
    some ⟨.needlessBool, "this if-then-else expression will always return false", none⟩
  | .retBool true, .retBool false =>
    some ⟨.needlessBool, "this if-then-else expression returns a bool literal",
      some ("`return " ++ s ++ "`")⟩
  | .bool true, .bool false =>
    some ⟨.needlessBool, "this if-then-else expression returns a bool literal",
      some ("`" ++ s ++ "`")⟩
  | .retBool false, .retBool true =>
    some ⟨.needlessBool, "this if-then-else expression returns a bool literal",
      some ("`return !" ++ s ++ "`")⟩
  | .bool false, .bool true =>
    some ⟨.needlessBool, "this if-then-else expression returns a bool literal",
      some ("`!" ++ s ++ "`")⟩
  | _, _ => none

/-- Spec-side decision table of the redundant-boolean-comparison check, on the
pair of operand classifications, given the recovered source texts `sl` and
`sr` of the left and right operands. -/
def boolCompTable (sl sr : String) : Expression → Expression → Option Diag
  | .bool true, .other =>
    some ⟨.boolComparison, "equality checks against true are unnecessary", some sr⟩
  | .other, .bool true =>
    some ⟨.boolComparison, "equality checks against true are unnecessary", some sl⟩
  | .bool false, .other =>
    some ⟨.boolComparison, "equality checks against false can be replaced by a negation",
      some ("!" ++ sr)⟩
  | .other, .bool false =>
    some ⟨.boolComparison, "equality checks against false can be replaced by a negation",
      some ("!" ++ sl)⟩
  | _, _ => none

/-- Spec-side test for the argument shapes that escape parenthesisation in the
pointer-to-reference suggestion: bare identifier or path, call, method call, or
block. -/
def isBareArg : Expr → Bool
  | .path _ => true
  | .call _ _ => true
  | .methodCall _ _ => true
  | .block _ => true
  | _ => false

/-- Spec-side pointer-to-reference suggestion, following the spec's wording:
`&*<arg>` or `&mut *<arg>` when the pointee types match (parenthesising the
argument unless it is bare), otherwise an explicit cast of the argument to the
destination's raw-pointer equivalent between the dereference and the argument. -/
def specC3Sugg (arg : String) (argShape : Expr) (fp rt : Ty) (rm : Mutability) : String :=
  let amp := if rm = .mutMutable then "&mut *" else "&*"
  if fp = rt then
    if isBareArg argShape then amp ++ arg else amp ++ "(" ++ arg ++ ")"
  else
    amp ++ "(" ++ arg ++ " as "
      ++ (if rm = .mutMutable then "*mut" else "*const") ++ " " ++ tyStr rt ++ ")"

/-! Fuel-indexed versions of the two mutually recursive classifiers, used to
state that the recursion terminates within a stack depth bounded by the size
of the expression tree. -/

mutual
/-- Fuel-indexed version of `fetch_bool_expr`: consumes one unit of fuel per
call and returns `none` when the fuel runs out. -/
def fetchBoolExprFuel : Nat → Expr → Option Expression
  | 0, _ => none
  | n + 1, e =>
    match e with
    | .block b => fetchBoolBlockFuel n b
    | .lit l =>
      match l with
      | .bool v => some (.bool v)
      | _ => some .other
    | .ret (some e') =>
      match fetchBoolExprFuel n e' with
      | some (.bool v) => some (.retBool v)
      | some _ => some .other
      | none => none
    | _ => some .other

/-- Fuel-indexed version of `fetch_bool_block`. -/
def fetchBoolBlockFuel : Nat → Block → Option Expression
  | 0, _ => none
  | n + 1, .mk stmts tail =>
    match stmts, tail with
    | [], some e => fetchBoolExprFuel n e
    | [s], none =>
      match s with
      | .semi e =>
        match e with
        | .ret _ => fetchBoolExprFuel n e
        | _ => some .other
      | _ => some .other
    | _, _ => some .other
end

/-! Theorems settling the claims. -/

/-- Claim C6: for every block, `fetch_bool_block` yields the classification of
the trailing expression when the block has no statements and a trailing
expression; `retBool v` when the block consists of exactly one
semicolon-terminated return statement whose argument classifies as `bool v`
and there is no trailing expression; and the unclassified result for every
other block shape. -/
theorem fetch_bool_block_c6 :
    ∀ (stmts : List Stmt) (tail : Option Expr),
      fetch_bool_block (.mk stmts tail) = specBlockClassify stmts tail := by
  intro stmts tail
  cases stmts with
  | nil => cases tail <;> rfl
  | cons s rest =>
    cases s with
    | decl n => cases rest <;> cases tail <;> rfl
    | exprStmt e => cases rest <;> cases tail <;> rfl
    | semi e =>
      cases e with
      | ret oe => cases oe <;> cases rest <;> cases tail <;> rfl
      | lit l => cases rest <;> cases tail <;> rfl
      | block b => cases rest <;> cases tail <;> rfl
      | binary op l r => cases rest <;> cases tail <;> rfl
      | ifE c tb ee => cases rest <;> cases tail <;> rfl
      | call f a => cases rest <;> cases tail <;> rfl
      | methodCall r a => cases rest <;> cases tail <;> rfl
      | path p => cases rest <;> cases tail <;> rfl
      | otherExpr n => cases rest <;> cases tail <;> rfl

/-- Claim C1: for a two-armed conditional whose condition's source text is
recoverable, the outcome of the redundant-conditional check is exactly the
spec's decision table applied to the pair of branch classifications. -/
theorem needless_bool_c1 (snip : Expr → Option String) (cond : Expr) (tb : Block)
    (ee : Expr) (s : String) (h : snip cond = some s) :
    checkNeedlessBool snip (.ifE cond tb (some ee)) =
      needlessBoolTable s (fetch_bool_block tb) (fetch_bool_expr ee) := by
  cases h1 : fetch_bool_block tb <;> cases h2 : fetch_bool_expr ee <;>
    first
    | (rename_i b1 b2; cases b1 <;> cases b2 <;>
        simp [checkNeedlessBool, h1, h2, needlessBoolTable, h])
    | (rename_i b; cases b <;>
        simp [checkNeedlessBool, h1, h2, needlessBoolTable, h])
    | simp [checkNeedlessBool, h1, h2, needlessBoolTable, h]

/-- Witness for claim C1 at a concrete conditional `if p { true } else { false }`. -/
theorem needless_bool_c1_witness :
    checkNeedlessBool (fun _ => some "p")
        (.ifE (.path 0) (.mk [] (some (.lit (.bool true)))) (some (.lit (.bool false)))) =
      some ⟨.needlessBool, "this if-then-else expression returns a bool literal",
        some "`p`"⟩ := by
  have h := needless_bool_c1 (fun _ => some "p") (.path 0)
    (.mk [] (some (.lit (.bool true)))) (.lit (.bool false)) "p" rfl
  rw [h]
  rfl

/-- Claim C4: for an equality comparison whose operands' source texts are
recoverable, the outcome of the redundant-boolean-comparison check is exactly
the spec's decision table applied to the pair of operand classifications: a
diagnostic with the other operand's text when one side is `bool true` and the
other unclassified, a negation when one side is `bool false` and the other
unclassified, and nothing otherwise. -/
theorem bool_comparison_c4 (snip : Expr → Option String) (l r : Expr) (sl sr : String)
    (hl : snip l = some sl) (hr : snip r = some sr) :
    checkBoolComparison snip (.binary .biEq l r) =
      boolCompTable sl sr (fetch_bool_expr l) (fetch_bool_expr r) := by
  cases h1 : fetch_bool_expr l <;> cases h2 : fetch_bool_expr r <;>
    first
    | (rename_i b1 b2; cases b1 <;> cases b2 <;>
        simp [checkBoolComparison, snippetD, h1, h2, boolCompTable, hl, hr])
    | (rename_i b; cases b <;>
        simp [checkBoolComparison, snippetD, h1, h2, boolCompTable, hl, hr])
    | simp [checkBoolComparison, snippetD, h1, h2, boolCompTable, hl, hr]

/-- Witness for claim C4 at the concrete comparison `x == true`. -/
theorem bool_comparison_c4_witness :
    checkBoolComparison (fun e => match e with | .path 0 => some "x" | _ => some "true")
        (.binary .biEq (.path 0) (.lit (.bool true))) =
      some ⟨.boolComparison, "equality checks against true are unnecessary", some "x"⟩ := by
  have h := bool_comparison_c4
    (fun e => match e with | .path 0 => some "x" | _ => some "true")
    (.path 0) (.lit (.bool true)) "x" "true" rfl rfl
  rw [h]
  rfl

/-- Claim C9: the redundant-boolean-comparison check emits no diagnostic for a
binary expression whose operator is not `==`, whatever the operands are. -/
theorem bool_comparison_c9 (snip : Expr → Option String) (op : BinOp) (l r : Expr)
    (h : op ≠ .biEq) :
    checkBoolComparison snip (.binary op l r) = none := by
  cases op with
  | biEq => exact absurd rfl h
  | biNe => rfl
  | biLt => rfl
  | biAnd => rfl
  | biOr => rfl

/-- Witness for claim C9 at the concrete comparison `x != true`. -/
theorem bool_comparison_c9_witness :
    checkBoolComparison (fun _ => some "x") (.binary .biNe (.path 0) (.lit (.bool true))) =
      none :=
  bool_comparison_c9 (fun _ => some "x") .biNe (.path 0) (.lit (.bool true)) (by decide)

/-- With fuel at least the structural size of the input, the fuel-indexed
classifiers never exhaust their fuel and agree with the classifiers translated
from the source: the recursion depth is bounded by the size of the tree. -/
theorem fetchFuel_spec : ∀ n : Nat,
    (∀ e : Expr, sizeOf e ≤ n → fetchBoolExprFuel n e = some (fetch_bool_expr e)) ∧
    (∀ b : Block, sizeOf b ≤ n → fetchBoolBlockFuel n b = some (fetch_bool_block b)) := by
  intro n
  induction n with
  | zero =>
    constructor
    · intro e h
      exact absurd h (by cases e <;> simp)
    · intro b h
      exact absurd h (by cases b; simp)
  | succ n ih =>
    obtain ⟨ihe, ihb⟩ := ih
    constructor
    · intro e h
      cases e with
      | block b =>
        have hd : sizeOf b ≤ n := by
          simp at h
          omega
        simp [fetchBoolExprFuel, fetch_bool_expr, ihb b hd]
      | lit l => cases l <;> rfl
      | ret oe =>
        cases oe with
        | none => rfl
        | some e' =>
          have hd : sizeOf e' ≤ n := by
            simp at h
            omega
          have he := ihe e' hd
          simp only [fetchBoolExprFuel, fetch_bool_expr, he]
          cases h2 : fetch_bool_expr e' <;> simp [h2]
      | binary op l r => rfl
      | ifE c tb ee => rfl
      | call f a => rfl
      | methodCall r a => rfl
      | path p => rfl
      | otherExpr m => rfl
    · intro b h
      cases b with
      | mk stmts tail =>
        cases stmts with
        | nil =>
          cases tail with
          | none => rfl
          | some e =>
            have hd : sizeOf e ≤ n := by
              simp at h
              omega
            simp [fetchBoolBlockFuel, fetch_bool_block, ihe e hd]
        | cons s rest =>
          cases s with
          | decl m => cases rest <;> cases tail <;> rfl
          | exprStmt e => cases rest <;> cases tail <;> rfl
          | semi e =>
            cases e with
            | ret oe =>
              cases rest with
              | cons s2 rest2 => cases tail <;> cases oe <;> rfl
              | nil =>
                cases tail with
                | some e2 => cases oe <;> rfl
                | none =>
                  have hd : sizeOf (Expr.ret oe) ≤ n := by
                    simp at h ⊢
                    omega
                  simp [fetchBoolBlockFuel, fetch_bool_block, ihe (.ret oe) hd]
            | lit l => cases rest <;> cases tail <;> rfl
            | block b2 => cases rest <;> cases tail <;> rfl
            | binary op l r => cases rest <;> cases tail <;> rfl
            | ifE c tb ee => cases rest <;> cases tail <;> rfl
            | call f a => cases rest <;> cases tail <;> rfl
            | methodCall r a => cases rest <;> cases tail <;> rfl
            | path p => cases rest <;> cases tail <;> rfl
            | otherExpr m => cases rest <;> cases tail <;> rfl

/-- Claim C10: the mutually recursive classification of expressions and blocks
terminates on every finite tree: its recursion depth is bounded by the
structural size of the tree, so the fuel-indexed classifier run with that much
fuel never exhausts it and computes exactly the total classifier translated
from the source, however deeply blocks are nested. -/
theorem fetch_bool_termination_c10 :
    (∀ e : Expr, fetchBoolExprFuel (sizeOf e) e = some (fetch_bool_expr e)) ∧
    (∀ b : Block, fetchBoolBlockFuel (sizeOf b) b = some (fetch_bool_block b)) := by
  constructor
  · intro e
    exact (fetchFuel_spec (sizeOf e)).1 e le_rfl
  · intro b
    exact (fetchFuel_spec (sizeOf b)).2 b le_rfl

set_option maxHeartbeats 1600000 in
/-- Claim C2: the lint emitted by the translated type-pair match agrees, on
every pair of types, with the spec's ordered first-match classification; for
every type `T` the pair `(T, T)` classifies as identical, with priority over
every later category and with no suggested replacement; and a cast from a raw
pointer whose pointee equals the destination type is crosspointer even when
the destination is a reference. -/
theorem transmute_c2 :
    (∀ f t sn a, (transmuteDiag f t sn a).map Diag.lint = castRelLint (specClassifyOrdered f t)) ∧
    (∀ t sn a, transmuteDiag t t sn a = some ⟨.uselessTransmute, selfMsg t, none⟩) ∧
    (∀ m rm rt sn a,
      specClassifyOrdered (.rawPtr m (.ref rm rt)) (.ref rm rt) = .ptrToPointee ∧
      (transmuteDiag (.rawPtr m (.ref rm rt)) (.ref rm rt) sn a).map Diag.lint =
        some .crosspointerTransmute) := by
  refine ⟨?_, ?_, ?_⟩
  · intro f t sn a
    cases f <;> cases t <;>
      simp [transmuteDiag, transmuteRest, transmuteRest2, transmuteRest3,
        specClassifyOrdered, castRelLint, Ty.isRef, Ty.isRawPtr, Ty.isInt, Ty.isUint,
        Ty.isFloat, Ty.isChar, Ty.pointee?] <;>
      (try (split_ifs <;> simp_all))
  · intro t sn a
    simp [transmuteDiag]
  · intro m rm rt sn a
    constructor
    · simp [specClassifyOrdered, Ty.isRef, Ty.isRawPtr, Ty.isInt, Ty.isUint,
        Ty.isFloat, Ty.isChar, Ty.pointee?]
    · simp [transmuteDiag, transmuteRest]

/-- The pointer-to-reference suggestion built by the translated check equals
the suggestion described by the spec's wording. -/
theorem ptrToRefSugg_eq_spec (arg : String) (a : Expr) (fp rt : Ty) (rm : Mutability) :
    ptrToRefSugg arg a fp rt rm = specC3Sugg arg a fp rt rm := by
  cases a <;>
    simp only [ptrToRefSugg, specC3Sugg, isBareArg] <;>
    split_ifs <;>
    simp_all

/-- Claim C3: for a cast from a raw pointer to a reference (with the pointee
of the pointer not itself being the destination reference type, which would
classify as crosspointer instead), when the argument's source text is
recoverable the suggested replacement is `&*<arg>` for an immutable
destination and `&mut *<arg>` for a mutable one when the pointee types match,
parenthesising the argument unless it is a bare path, call, method call or
block; when the pointee types differ, an explicit cast of the argument to the
destination's raw-pointer equivalent is inserted after the dereference
operator. -/
theorem transmute_c3 (fm : Mutability) (fp : Ty) (rm : Mutability) (rt : Ty)
    (arg : String) (a : Expr) (h : fp ≠ Ty.ref rm rt) :
    transmuteDiag (.rawPtr fm fp) (.ref rm rt) (some arg) a =
      some ⟨.transmutePtrToRef, ptrToRefMsg (.rawPtr fm fp) (.ref rm rt),
        some (specC3Sugg arg a fp rt rm)⟩ := by
  simp [transmuteDiag, transmuteRest, transmuteRest2, transmuteRest3, h,
    ptrToRefSugg_eq_spec]

/-- Witness for claim C3 at concrete immutable and mutable pointer-to-reference
casts with matching and differing pointee types. -/
theorem transmute_c3_witness :
    transmuteDiag (.rawPtr .mutImmutable (.adt 0)) (.ref .mutImmutable (.adt 0))
        (some "p") (.path 0) =
      some ⟨.transmutePtrToRef, ptrToRefMsg (.rawPtr .mutImmutable (.adt 0))
        (.ref .mutImmutable (.adt 0)), some "&*p"⟩ ∧
    transmuteDiag (.rawPtr .mutImmutable (.adt 0)) (.ref .mutMutable (.adt 1))
        (some "p") (.binary .biAnd (.path 0) (.path 1)) =
      some ⟨.transmutePtrToRef, ptrToRefMsg (.rawPtr .mutImmutable (.adt 0))
        (.ref .mutMutable (.adt 1)), some "&mut *(p as *mut T1)"⟩ := by
  constructor
  · have h := transmute_c3 .mutImmutable (.adt 0) .mutImmutable (.adt 0) "p" (.path 0)
      (by decide)
    rw [h]
    rfl
  · have h := transmute_c3 .mutImmutable (.adt 0) .mutMutable (.adt 1) "p"
      (.binary .biAnd (.path 0) (.path 1)) (by decide)
    rw [h]
    rfl

/-- Claim C7: for a reference-to-pointer cast the check emits the useless-cast
lint, suggesting `<arg> as <dest type>` when the reference's pointee and
mutability equal the destination pointer's, and a two-step cast through the
reference's raw-pointer equivalent otherwise; for an integer-to-pointer cast
it suggests `<arg> as <dest type>`; for a float or char source cast to a
pointer or reference it emits the wrong-transmute lint with no suggestion; and
for both crosspointer directions it emits the crosspointer lint with no
suggestion. -/
theorem transmute_c7 :
    (∀ rm rt pm pt arg a,
      transmuteDiag (.ref rm rt) (.rawPtr pm pt) (some arg) a =
        some ⟨.uselessTransmute, "transmute from a reference to a pointer",
          some (if pm = rm ∧ pt = rt then arg ++ " as " ++ tyStr (.rawPtr pm pt)
                else arg ++ " as " ++ tyStr (.rawPtr rm rt) ++ " as "
                  ++ tyStr (.rawPtr pm pt))⟩) ∧
    (∀ w pm pt arg a,
      transmuteDiag (.int w) (.rawPtr pm pt) (some arg) a =
        some ⟨.uselessTransmute, "transmute from an integer to a pointer",
          some (arg ++ " as " ++ tyStr (.rawPtr pm pt))⟩) ∧
    (∀ w pm pt arg a,
      transmuteDiag (.uint w) (.rawPtr pm pt) (some arg) a =
        some ⟨.uselessTransmute, "transmute from an integer to a pointer",
          some (arg ++ " as " ++ tyStr (.rawPtr pm pt))⟩) ∧
    (∀ w rm rt sn a,
      transmuteDiag (.float w) (.ref rm rt) sn a =
        some ⟨.wrongTransmute, wrongMsg (.float w), none⟩) ∧
    (∀ w pm pt sn a,
      transmuteDiag (.float w) (.rawPtr pm pt) sn a =
        some ⟨.wrongTransmute, wrongMsg (.float w), none⟩) ∧
    (∀ rm rt sn a,
      transmuteDiag .char (.ref rm rt) sn a =
        some ⟨.wrongTransmute, wrongMsg .char, none⟩) ∧
    (∀ pm pt sn a,
      transmuteDiag .char (.rawPtr pm pt) sn a =
        some ⟨.wrongTransmute, wrongMsg .char, none⟩) ∧
    (∀ f t sn a, specClassifyOrdered f t = .ptrToPointee →
      transmuteDiag f t sn a = some ⟨.crosspointerTransmute, crossMsg1 f t, none⟩) ∧
    (∀ f t sn a, specClassifyOrdered f t = .pointeeToPtr →
      transmuteDiag f t sn a = some ⟨.crosspointerTransmute, crossMsg2 f t, none⟩) := by
  refine ⟨?_, ?_, ?_, ?_, ?_, ?_, ?_, ?_, ?_⟩
  · intro rm rt pm pt arg a
    have hne : Ty.ref rm rt ≠ Ty.rawPtr pm pt := fun hh => Ty.noConfusion hh
    simp only [transmuteDiag, if_neg hne]
    rfl
  · intro w pm pt arg a
    simp [transmuteDiag]
  · intro w pm pt arg a
    simp [transmuteDiag]
  · intro w rm rt sn a
    simp [transmuteDiag]
  · intro w pm pt sn a
    simp [transmuteDiag]
  · intro rm rt sn a
    simp [transmuteDiag]
  · intro pm pt sn a
    simp [transmuteDiag]
  · intro f t sn a h
    simp only [specClassifyOrdered] at h
    split_ifs at h with h1 h2 h3 h4 h5
    all_goals try simp_all
    cases f <;> simp [Ty.pointee?] at h5
    subst h5
    simp [transmuteDiag, transmuteRest, h1]
  · intro f t sn a h
    simp only [specClassifyOrdered] at h
    split_ifs at h with h1 h2 h3 h4 h5 h6
    all_goals try simp_all
    cases t with
    | int w => simp [Ty.pointee?] at h6
    | uint w => simp [Ty.pointee?] at h6
    | float w => simp [Ty.pointee?] at h6
    | char => simp [Ty.pointee?] at h6
    | ref m2 t2 => simp [Ty.pointee?] at h6
    | adt n => simp [Ty.pointee?] at h6
    | rawPtr tm tp =>
      simp only [Ty.pointee?, Option.some.injEq] at h6
      subst h6
      cases tp with
      | ref m3 t3 => exact absurd (h2 (by simp [Ty.isRef])) (by simp [Ty.isRawPtr])
      | int w => exact absurd (h3 (Or.inl (by simp [Ty.isInt]))) (by simp [Ty.isRawPtr])
      | uint w => exact absurd (h3 (Or.inr (by simp [Ty.isUint]))) (by simp [Ty.isRawPtr])
      | float w => exact absurd ((h4 (Or.inl (by simp [Ty.isFloat]))).2) (by simp [Ty.isRawPtr])
      | char => exact absurd ((h4 (Or.inr (by simp [Ty.isChar]))).2) (by simp [Ty.isRawPtr])
      | adt n =>
        simp [transmuteDiag, transmuteRest, transmuteRest2, h1, Ty.pointee?]
      | rawPtr pm2 pp2 =>
        have hn : ¬ pp2 = Ty.rawPtr tm (Ty.rawPtr pm2 pp2) := by
          simpa [Ty.pointee?] using h5
        simp [transmuteDiag, transmuteRest, transmuteRest2, h1, hn]

/-- Witness for claim C7 at concrete casts in both crosspointer directions,
discharging the classification hypotheses. -/
theorem transmute_c7_witness :
    transmuteDiag (.rawPtr .mutImmutable (.adt 0)) (.adt 0) none (.path 0) =
      some ⟨.crosspointerTransmute,
        crossMsg1 (.rawPtr .mutImmutable (.adt 0)) (.adt 0), none⟩ ∧
    transmuteDiag (.adt 0) (.rawPtr .mutImmutable (.adt 0)) none (.path 0) =
      some ⟨.crosspointerTransmute,
        crossMsg2 (.adt 0) (.rawPtr .mutImmutable (.adt 0)), none⟩ := by
  constructor
  · exact transmute_c7.2.2.2.2.2.2.2.1 (.rawPtr .mutImmutable (.adt 0)) (.adt 0)
      none (.path 0) (by decide)
  · exact transmute_c7.2.2.2.2.2.2.2.2 (.adt 0) (.rawPtr .mutImmutable (.adt 0))
      none (.path 0) (by decide)

/-- Claim C8: under the precondition that every call recognised as the
transmute primitive has exactly one argument, the translated check never hits
the out-of-bounds access on the call's first argument: it returns a value on
every visited expression node. -/
theorem check_transmute_c8 (exprTy : Expr → Ty) (isTransmuteDef : Nat → Bool)
    (snip : Expr → Option String) (e : Expr)
    (h : ∀ pe args n, e = .call pe args → pe = .path n →
      isTransmuteDef n = true → args.length = 1) :
    ∃ r, checkTransmute exprTy isTransmuteDef snip e = .ok r := by
  cases e with
  | call pe args =>
    cases pe with
    | path n =>
      by_cases ht : isTransmuteDef n = true
      · have hlen := h (.path n) args n rfl rfl ht
        cases args with
        | nil => simp at hlen
        | cons a rest =>
          exact ⟨transmuteDiag (exprTy a) (exprTy (.call (.path n) (a :: rest))) (snip a) a,
            by simp [checkTransmute, ht]⟩
      · exact ⟨none, by simp [checkTransmute, ht]⟩
    | lit l => exact ⟨none, rfl⟩
    | block b => exact ⟨none, rfl⟩
    | ret oe => exact ⟨none, rfl⟩
    | binary op l r => exact ⟨none, rfl⟩
    | ifE c tb ee => exact ⟨none, rfl⟩
    | call f a => exact ⟨none, rfl⟩
    | methodCall r a => exact ⟨none, rfl⟩
    | otherExpr m => exact ⟨none, rfl⟩
  | lit l => exact ⟨none, rfl⟩
  | block b => exact ⟨none, rfl⟩
  | ret oe => exact ⟨none, rfl⟩
  | binary op l r => exact ⟨none, rfl⟩
  | ifE c tb ee => exact ⟨none, rfl⟩
  | methodCall r a => exact ⟨none, rfl⟩
  | path p => exact ⟨none, rfl⟩
  | otherExpr m => exact ⟨none, rfl⟩

/-- Witness for claim C8 at a concrete one-argument transmute call. -/
theorem check_transmute_c8_witness :
    ∃ r, checkTransmute (fun _ => Ty.adt 0) (fun _ => true) (fun _ => none)
      (.call (.path 0) [.path 1]) = .ok r :=
  check_transmute_c8 (fun _ => Ty.adt 0) (fun _ => true) (fun _ => none)
    (.call (.path 0) [.path 1])
    (by
      intro pe args n h1 h2 h3
      cases h1
      rfl)

/-- Counterexample for claim C5: at `x == true` with unrecoverable source
text, the redundant-boolean-comparison check does not omit the suggested
replacement; it emits the warning with the fallback placeholder text `..` as
the suggestion. -/
theorem bool_comparison_c5_counterexample :
    checkBoolComparison (fun _ => none) (.binary .biEq (.path 0) (.lit (.bool true))) =
      some ⟨.boolComparison, "equality checks against true are unnecessary", some ".."⟩ ∧
    checkBoolComparison (fun _ => none) (.binary .biEq (.path 0) (.lit (.bool true))) ≠
      some ⟨.boolComparison, "equality checks against true are unnecessary", none⟩ := by
  constructor
  · rfl
  · decide

/-- Claim C5 as amended: when the source text needed for a suggestion cannot
be recovered, every check still emits its warning and never fails; the
transmute checks omit the suggested replacement, the redundant-conditional
check substitutes a generic phrase as the suggestion, and the
redundant-boolean-comparison check substitutes the placeholder `..` for the
missing operand text inside its suggestion. -/
theorem degrade_c5_amended :
    (∀ snip cond tb ee, snip cond = none →
      fetch_bool_block tb = .bool true → fetch_bool_expr ee = .bool false →
      checkNeedlessBool snip (.ifE cond tb (some ee)) =
        some ⟨.needlessBool, "this if-then-else expression returns a bool literal",
          some "its predicate"⟩) ∧
    (∀ snip cond tb ee, snip cond = none →
      fetch_bool_block tb = .bool false → fetch_bool_expr ee = .bool true →
      checkNeedlessBool snip (.ifE cond tb (some ee)) =
        some ⟨.needlessBool, "this if-then-else expression returns a bool literal",
          some "`!` and its predicate"⟩) ∧
    (∀ snip l r, snip r = none →
      fetch_bool_expr l = .bool true → fetch_bool_expr r = .other →
      checkBoolComparison snip (.binary .biEq l r) =
        some ⟨.boolComparison, "equality checks against true are unnecessary",
          some ".."⟩) ∧
    (∀ rm rt pm pt a,
      transmuteDiag (.ref rm rt) (.rawPtr pm pt) none a =
        some ⟨.uselessTransmute, "transmute from a reference to a pointer", none⟩) ∧
    (∀ w pm pt a,
      transmuteDiag (.int w) (.rawPtr pm pt) none a =
        some ⟨.uselessTransmute, "transmute from an integer to a pointer", none⟩) ∧
    (∀ fm fp rm rt a, fp ≠ Ty.ref rm rt →
      transmuteDiag (.rawPtr fm fp) (.ref rm rt) none a =
        some ⟨.transmutePtrToRef, ptrToRefMsg (.rawPtr fm fp) (.ref rm rt), none⟩) := by
  refine ⟨?_, ?_, ?_, ?_, ?_, ?_⟩
  · intro snip cond tb ee hs h1 h2
    simp [checkNeedlessBool, h1, h2, hs]
  · intro snip cond tb ee hs h1 h2
    simp [checkNeedlessBool, h1, h2, hs]
  · intro snip l r hs h1 h2
    simp [checkBoolComparison, snippetD, h1, h2, hs]
  · intro rm rt pm pt a
    have hne : Ty.ref rm rt ≠ Ty.rawPtr pm pt := fun hh => Ty.noConfusion hh
    simp only [transmuteDiag, if_neg hne]
    rfl
  · intro w pm pt a
    simp [transmuteDiag]
  · intro fm fp rm rt a h
    simp [transmuteDiag, transmuteRest, transmuteRest2, transmuteRest3, h]

/-- Witness for the amended claim C5 at concrete nodes with unrecoverable
source text. -/
theorem degrade_c5_amended_witness :
    checkNeedlessBool (fun _ => none)
        (.ifE (.path 0) (.mk [] (some (.lit (.bool true)))) (some (.lit (.bool false)))) =
      some ⟨.needlessBool, "this if-then-else expression returns a bool literal",
        some "its predicate"⟩ ∧
    transmuteDiag (.rawPtr .mutImmutable (.adt 0)) (.ref .mutImmutable (.adt 0))
        none (.path 0) =
      some ⟨.transmutePtrToRef,
        ptrToRefMsg (.rawPtr .mutImmutable (.adt 0)) (.ref .mutImmutable (.adt 0)),
        none⟩ := by
  constructor
  · exact degrade_c5_amended.1 (fun _ => none) (.path 0)
      (.mk [] (some (.lit (.bool true)))) (.lit (.bool false)) rfl rfl rfl
  · exact degrade_c5_amended.2.2.2.2.2 .mutImmutable (.adt 0) .mutImmutable (.adt 0)
      (.path 0) (by decide)

end Clippy
